import Mathlib

/-!
Verification development for the ManageBac grade-viewer repository.

The server (`server/index.js`) scrapes portal HTML into task and category
records and aggregates them into a weighted final grade; the Vue client
(`src/App.vue`) recomputes per-category averages, a weighted total, and lets
the user apply hypothetical percentage overrides against a baseline snapshot.

JavaScript numbers are modelled as exact rationals (`ℚ`) and integers (`Int`);
`null`/absent values as `Option`; JS objects used as string-keyed maps as
association lists.  String primitives (`trim`, `split`, `parseFloat`,
`parseInt`, `includes`, `replace`) are modelled on `List Char` following the
ECMAScript semantics the source relies on (sign, decimal digits, fraction,
exponent, hex prefix for `parseInt`, longest-valid-prefix parsing; the
non-finite values `NaN`/`Infinity` fall outside the rational model and are
treated as parse failures).  Numeric-literal parsing is split into a discrete
scanning phase and the ECMAScript "mathematical value" of the scanned literal.
-/

namespace GradeCalc

/-- The whitespace class used by JS `trim`/`parseFloat`/`parseInt`
(core members; exotic Unicode space characters behave identically). -/
def isJsWs (c : Char) : Bool :=
  c = ' ' || c = '\t' || c = '\n' || c = '\r' || c = '\x0b' || c = '\x0c' || c = ' '

/-- JS `String.prototype.trim`: drop leading and trailing whitespace. -/
def jsTrim (cs : List Char) : List Char :=
  ((cs.dropWhile isJsWs).reverse.dropWhile isJsWs).reverse

/-- JS `str.replace('pts', '')`: remove the first occurrence of `"pts"`. -/
def stripPts : List Char → List Char
  | 'p' :: 't' :: 's' :: rest => rest
  | c :: rest => c :: stripPts rest
  | [] => []

/-- JS `str.split('/')` for the single-character separator `'/'`. -/
def jsSplitSlash : List Char → List (List Char)
  | [] => [[]]
  | c :: rest =>
    if c = '/' then [] :: jsSplitSlash rest
    else
      match jsSplitSlash rest with
      | [] => [[c]]
      | p :: ps => (c :: p) :: ps

def digitVal (c : Char) : Nat := c.toNat - '0'.toNat

def digitsToNat (ds : List Char) : Nat := ds.foldl (fun a c => a * 10 + digitVal c) 0

def isHexDigitChar (c : Char) : Bool :=
  c.isDigit || ('a' ≤ c && c ≤ 'f') || ('A' ≤ c && c ≤ 'F')

def hexDigitVal (c : Char) : Nat :=
  if c.isDigit then digitVal c
  else if 'a' ≤ c && c ≤ 'f' then c.toNat - 'a'.toNat + 10
  else c.toNat - 'A'.toNat + 10

def hexToNat (ds : List Char) : Nat := ds.foldl (fun a c => a * 16 + hexDigitVal c) 0

/-- The components of a scanned JS decimal float literal: sign, integer
digits, fraction digits, exponent sign and exponent digits (empty when the
literal has no well-formed exponent suffix, which JS then ignores). -/
structure FloatParts where
  neg : Bool
  ip : List Char
  fp : List Char
  expNeg : Bool
  expDigits : List Char
deriving DecidableEq, Repr

/-- Scan an exponent suffix after `e`/`E`: optional sign then digits. -/
def scanExp (r : List Char) : Bool × List Char :=
  let sr : Bool × List Char :=
    match r with
    | '+' :: r2 => (false, r2)
    | '-' :: r2 => (true, r2)
    | _ => (false, r)
  (sr.1, (sr.2.span Char.isDigit).1)

/-- The discrete scanning phase of JS `parseFloat`: skip whitespace, optional
sign, integer digits, optional `.` fraction, optional exponent; `none` models
`NaN` (no digit in the longest valid prefix). -/
def jsParseFloatScan (cs0 : List Char) : Option FloatParts :=
  let cs1 := cs0.dropWhile isJsWs
  let sc : Bool × List Char :=
    match cs1 with
    | '+' :: r => (false, r)
    | '-' :: r => (true, r)
    | _ => (false, cs1)
  let ipr := sc.2.span Char.isDigit
  let fpr : List Char × List Char :=
    match ipr.2 with
    | '.' :: r => r.span Char.isDigit
    | _ => ([], ipr.2)
  if ipr.1.isEmpty && fpr.1.isEmpty then none
  else
    let er : Bool × List Char :=
      match fpr.2 with
      | 'e' :: r => scanExp r
      | 'E' :: r => scanExp r
      | _ => (false, [])
    some ⟨sc.1, ipr.1, fpr.1, er.1, er.2⟩

/-- The exact mathematical value of a scanned float literal. -/
def floatPartsVal (p : FloatParts) : ℚ :=
  let base : ℚ := (digitsToNat p.ip : ℚ) + (digitsToNat p.fp : ℚ) / (10 : ℚ) ^ p.fp.length
  let w : ℚ :=
    if p.expDigits.isEmpty then base
    else if p.expNeg then base / (10 : ℚ) ^ digitsToNat p.expDigits
    else base * (10 : ℚ) ^ digitsToNat p.expDigits
  if p.neg then -w else w

/-- JS `parseFloat` on the exact-rational model of JS numbers. -/
def jsParseFloat (cs : List Char) : Option ℚ :=
  (jsParseFloatScan cs).map floatPartsVal

/-- Tail of JS `parseInt` after a `0x`/`0X` prefix: hex digits. -/
def parseHexTail (sgn : Int) (r : List Char) : Option Int :=
  let ds := (r.span isHexDigitChar).1
  if ds.isEmpty then none else some (sgn * (hexToNat ds : Int))

/-- JS `parseInt` with no radix argument: skip whitespace, optional sign,
`0x`/`0X` hex prefix or decimal digits; longest valid prefix; `none` is `NaN`. -/
def jsParseInt (cs0 : List Char) : Option Int :=
  let cs1 := cs0.dropWhile isJsWs
  let sc : Int × List Char :=
    match cs1 with
    | '+' :: r => (1, r)
    | '-' :: r => (-1, r)
    | _ => (1, cs1)
  match sc.2 with
  | '0' :: 'x' :: r => parseHexTail sc.1 r
  | '0' :: 'X' :: r => parseHexTail sc.1 r
  | _ =>
    let ds := (sc.2.span Char.isDigit).1
    if ds.isEmpty then none else some (sc.1 * (digitsToNat ds : Int))

/-- Whether `needle` occurs at the head of `hay`. -/
def headAgrees : List Char → List Char → Bool
  | [], _ => true
  | _ :: _, [] => false
  | a :: as, b :: bs => a = b && headAgrees as bs

/-- JS `String.prototype.includes`: substring containment. -/
def jsIncludes (hay needle : List Char) : Bool :=
  match hay with
  | [] => needle.isEmpty
  | _ :: rest => headAgrees needle hay || jsIncludes rest needle

/-- JS `Math.round`: round half toward positive infinity, `⌊x + 1/2⌋`. -/
def roundHalfUp (q : ℚ) : Int := ⌊q + 1 / 2⌋

/-- `calculatePercentage(pointsStr)` from `server/index.js`: split the points
string on `/`, strip a `pts` unit and whitespace from each side, parse both
as numbers, and return `round(earned / total * 100)` when both parse and the
total is positive; otherwise `null`.  An absent or empty string (falsy) or a
string without `/` also yields `null`. -/
def calculatePercentage (points : Option String) : Option Int :=
  match points with
  | none => none
  | some s =>
    if s.data.isEmpty then none
    else if !(s.data.contains '/') then none
    else
      match jsSplitSlash s.data with
      | ea :: tb :: _ =>
        match jsParseFloat (jsTrim (stripPts ea)), jsParseFloat (jsTrim (stripPts tb)) with
        | some earned, some total =>
          if 0 < total then some (roundHalfUp (earned / total * 100)) else none
        | some _, none => none
        | none, _ => none
      | _ => none

/-- One global replace `text.replace(/&amp;/g, '&')`: left-to-right,
non-overlapping, the replacement is not rescanned. -/
def decAmp : List Char → List Char
  | '&' :: 'a' :: 'm' :: 'p' :: ';' :: rest => '&' :: decAmp rest
  | c :: rest => c :: decAmp rest
  | [] => []

/-- Global replace of `&lt;` by `<`. -/
def decLt : List Char → List Char
  | '&' :: 'l' :: 't' :: ';' :: rest => '<' :: decLt rest
  | c :: rest => c :: decLt rest
  | [] => []

/-- Global replace of `&gt;` by `>`. -/
def decGt : List Char → List Char
  | '&' :: 'g' :: 't' :: ';' :: rest => '>' :: decGt rest
  | c :: rest => c :: decGt rest
  | [] => []

/-- Global replace of `&quot;` by `"`. -/
def decQuot : List Char → List Char
  | '&' :: 'q' :: 'u' :: 'o' :: 't' :: ';' :: rest => '\x22' :: decQuot rest
  | c :: rest => c :: decQuot rest
  | [] => []

/-- Global replace of `&#039;` by the apostrophe character. -/
def decApos : List Char → List Char
  | '&' :: '#' :: '0' :: '3' :: '9' :: ';' :: rest => '\x27' :: decApos rest
  | c :: rest => c :: decApos rest
  | [] => []

/-- Global replace of `&nbsp;` by a space. -/
def decNbsp : List Char → List Char
  | '&' :: 'n' :: 'b' :: 's' :: 'p' :: ';' :: rest => ' ' :: decNbsp rest
  | c :: rest => c :: decNbsp rest
  | [] => []

/-- `decodeHtmlEntities(text)` from `server/index.js`: six sequential global
replacements; a falsy (empty) input is returned unchanged. -/
def decodeHtmlEntities (s : String) : String :=
  if s = "" then s
  else String.mk (decNbsp (decApos (decQuot (decGt (decLt (decAmp s.data))))))

/-- JS `.trim()` on a `String`. -/
def jsTrimStr (s : String) : String := String.mk (jsTrim s.data)

/-- `extractText(match)` from `server/index.js`: trim the captured group and
decode entities; `null` when the match is absent. -/
def extractText (m : Option String) : Option String :=
  m.map fun t => decodeHtmlEntities (jsTrimStr t)

/-- A grading category as extracted by `fetchCategories`. -/
structure Category where
  name : String
  weight : Int
  color : String
deriving DecidableEq, Repr

/-- A task record as built by `fetchTasks` in `server/index.js`. -/
structure Task where
  id : Nat
  taskId : String
  classId : String
  name : String
  date : Option String
  category : Option String
  points : Option String
  grade : Option String
  percentage : Option Int
deriving DecidableEq, Repr

/-- JS truthiness of a nullable string: `null` and `""` are falsy. -/
def truthyStr : Option String → Bool
  | none => false
  | some s => !(s == "")

/-- The per-fragment match results inside one iteration of `fetchTasks`'
task-block loop: the required id+name anchor, the optional month/day labels,
the ordered color-label matches, and the optional points and grade captures.
This is the interface between the top-level block regex (which cuts the raw
HTML into fragments) and the per-field searches the loop performs. -/
structure Fragment where
  nameMatch : Option (String × String)
  monthMatch : Option String
  dayMatch : Option String
  labels : List (String × String)
  grade : Option String
  points : Option String
deriving DecidableEq, Repr

/-- The task-accumulation loop of `fetchTasks` (`server/index.js`): a fragment
without its id+name anchor is skipped (`continue`) without consuming a task
index; otherwise the date, category (second color label), points, grade and
derived percentage are assembled into a task record. -/
def fetchTasksLoop (classId : String) : List Fragment → Nat → List Task
  | [], _ => []
  | f :: rest, idx =>
    match f.nameMatch with
    | none => fetchTasksLoop classId rest idx
    | some nm =>
      let date : Option String :=
        match f.monthMatch, f.dayMatch with
        | some mo, some dy =>
          some ((decodeHtmlEntities (jsTrimStr mo)) ++ " " ++ (decodeHtmlEntities (jsTrimStr dy)))
        | _, _ => none
      let category : Option String :=
        match f.labels[1]? with
        | some lb => some (decodeHtmlEntities (jsTrimStr lb.2))
        | none => none
      let pointsStr : Option String := extractText f.points
      { id := idx, taskId := nm.1, classId := classId,
        name := decodeHtmlEntities (jsTrimStr nm.2),
        date := date, category := category, points := pointsStr,
        grade := extractText f.grade,
        percentage := calculatePercentage pointsStr } :: fetchTasksLoop classId rest (idx + 1)

/-- The pure extraction core of `fetchTasks`: all fragments the top-level
block regex matched, processed from task index 0.  An input with no matching
fragments yields `[]`.  Totality of this function models the contract that
extraction never throws. -/
def fetchTasks (classId : String) (fs : List Fragment) : List Task :=
  fetchTasksLoop classId fs 0

/-- A task record as built by the legacy `/api/tasks/:classId` route of the
earlier server revision (`src/unnamed/part_000`): the same fields as `Task`
plus the second color label's color. -/
structure LegacyTask where
  id : Nat
  taskId : String
  classId : String
  name : String
  date : Option String
  category : Option String
  categoryColor : Option String
  points : Option String
  grade : Option String
  percentage : Option Int
deriving DecidableEq, Repr

/-- The task-accumulation loop of the legacy route (`src/unnamed/part_000`):
the field recipes match `fetchTasksLoop`, but a fragment without its id+name
anchor makes the loop throw
(`if (!nameMatch) throw new Error('There was no task name found: ' + taskBlock)`)
instead of skipping it; the `Except` error value carries the offending
fragment, standing for the thrown message built from the block's raw text
(which the fragment abstraction does not retain).  A fragment that throws
discards every record already pushed, so the error propagates past them. -/
def fetchTasksLegacyLoop (classId : String) :
    List Fragment → Nat → Except Fragment (List LegacyTask)
  | [], _ => .ok []
  | f :: rest, idx =>
    match f.nameMatch with
    | none => .error f
    | some nm =>
      let date : Option String :=
        match f.monthMatch, f.dayMatch with
        | some mo, some dy =>
          some ((decodeHtmlEntities (jsTrimStr mo)) ++ " " ++ (decodeHtmlEntities (jsTrimStr dy)))
        | _, _ => none
      let category : Option String :=
        match f.labels[1]? with
        | some lb => some (decodeHtmlEntities (jsTrimStr lb.2))
        | none => none
      let categoryColor : Option String :=
        match f.labels[1]? with
        | some lb => some lb.1
        | none => none
      let pointsStr : Option String := extractText f.points
      match fetchTasksLegacyLoop classId rest (idx + 1) with
      | .error e => .error e
      | .ok ts =>
        .ok ({ id := idx, taskId := nm.1, classId := classId,
               name := decodeHtmlEntities (jsTrimStr nm.2),
               date := date, category := category, categoryColor := categoryColor,
               points := pointsStr, grade := extractText f.grade,
               percentage := calculatePercentage pointsStr } :: ts)

/-- The legacy extraction over all fragments, from task index 0. -/
def fetchTasksLegacy (classId : String) (fs : List Fragment) :
    Except Fragment (List LegacyTask) :=
  fetchTasksLegacyLoop classId fs 0

/-- How the legacy route body disposes of extraction: success answers with
the task list (plus server-computed grade averages, orthogonal here), and a
thrown extraction error is caught by the route's `catch`, failing the whole
request with `500 Failed to fetch tasks`. -/
inductive LegacyTasksResult where
  | ok (tasks : List LegacyTask) : LegacyTasksResult
  | serverError (status : Nat) (message : String) : LegacyTasksResult
deriving DecidableEq, Repr

def legacyTasksRoute (classId : String) (fs : List Fragment) : LegacyTasksResult :=
  match fetchTasksLegacy classId fs with
  | .ok ts => .ok ts
  | .error _ => .serverError 500 "Failed to fetch tasks"

/-- One entry of the `categoryAverages` accumulator object:
category name, running total of percentages, count. -/
abbrev AccEntry := String × Int × Nat

/-- Add one percentage under a key in the accumulator object
(`categoryAverages[cat].total += p; .count += 1`, creating the entry first
when the key is new). -/
def upsertAcc : List AccEntry → String → Int → List AccEntry
  | [], k, v => [(k, v, 1)]
  | (k2, t, c) :: rest, k, v =>
    if k2 = k then (k2, t + v, c + 1) :: rest
    else (k2, t, c) :: upsertAcc rest k v

/-- Property lookup in the accumulator object. -/
def lookupAcc : List AccEntry → String → Option (Int × Nat)
  | [], _ => none
  | (k2, t, c) :: rest, k => if k2 = k then some (t, c) else lookupAcc rest k

/-- One step of the accumulation pass shared by `calculateFinalGrade`
(server) and `gradeAverages` (client): a task with a falsy category or a
`null` percentage is skipped, every other task contributes its percentage
under its category name. -/
def accStep (acc : List AccEntry) (t : Task) : List AccEntry :=
  match t.category, t.percentage with
  | some s, some p => if s = "" then acc else upsertAcc acc s p
  | _, _ => acc

/-- The `categoryAverages` accumulator built from a task list. -/
def categoryAveragesAcc (tasks : List Task) : List AccEntry :=
  tasks.foldl accStep []

/-- The body of the `categories.forEach` loop in `calculateFinalGrade`: a
category with positive weight and an accumulator entry adds its unrounded
mean times its weight to the running weighted score and its weight to the
running total weight; every other category is skipped. -/
def finalGradeStep (acc : List AccEntry) (p : ℚ × Int) (c : Category) : ℚ × Int :=
  if (0 : Int) < c.weight then
    match lookupAcc acc c.name with
    | some tc => (p.1 + ((tc.1 : ℚ) / (tc.2 : ℚ)) * (c.weight : ℚ), p.2 + c.weight)
    | none => p
  else p

/-- `calculateFinalGrade(tasks, categories)` from `server/index.js`: with a
nonempty task and category list, sum `avg × weight` over the categories that
have positive weight and at least one accumulated task, where `avg` is the
category's unrounded mean percentage, and return the weighted mean rounded
once; `null` when no category qualifies. -/
def calculateFinalGrade (tasks : List Task) (categories : List Category) : Option Int :=
  if categories.isEmpty || tasks.isEmpty then none
  else
    let acc := categoryAveragesAcc tasks
    let p := categories.foldl (finalGradeStep acc) ((0 : ℚ), (0 : Int))
    if 0 < p.2 then some (roundHalfUp (p.1 / (p.2 : ℚ))) else none

/-- A task row inside a client `gradeAverages` entry. -/
structure RowTask where
  name : String
  date : Option String
  percentage : Option Int
deriving DecidableEq, Repr

/-- One entry of the client's computed `gradeAverages`. -/
structure CatRow where
  category : String
  color : String
  weight : Int
  average : Option Int
  tasks : List RowTask
deriving DecidableEq, Repr

/-- Membership test of a task in the `categorizedTasks` bucket of a category
name: the task's category must be truthy and strictly equal to the name. -/
def taskInCat (nm : String) (t : Task) : Bool :=
  truthyStr t.category && t.category == some nm

/-- The projection of a task into a `gradeAverages` row entry. -/
def toRowTask (t : Task) : RowTask :=
  { name := t.name, date := t.date, percentage := t.percentage }

/-- The row `gradeAverages` builds for one category: the tasks grouped under
its name (in task-list order) and the rounded mean of their non-null
percentages (`null` when no task qualifies). -/
def mkCatRow (acc : List AccEntry) (tasks : List Task) (c : Category) : CatRow :=
  { category := c.name, color := c.color, weight := c.weight,
    average :=
      match lookupAcc acc c.name with
      | some tc => some (roundHalfUp ((tc.1 : ℚ) / (tc.2 : ℚ)))
      | none => none,
    tasks := (tasks.filter (taskInCat c.name)).map toRowTask }

/-- The client's `gradeAverages` computed property (`src/App.vue`): one row
per category; `[]` when either input list is empty. -/
def gradeAverages (categories : List Category) (tasks : List Task) : List CatRow :=
  if categories.isEmpty || tasks.isEmpty then []
  else categories.map (mkCatRow (categoryAveragesAcc tasks) tasks)

/-- The client's `calculateTotalClassAverage` computed property: over the
`gradeAverages` rows with a non-null average and positive weight, the
weighted mean of the already-rounded averages, rounded again. -/
def calculateTotalClassAverage (categories : List Category) (tasks : List Task) : Option Int :=
  let rows := (gradeAverages categories tasks).filter
    fun r => !(r.average == none) && decide (0 < r.weight)
  if rows.isEmpty then none
  else
    let p := rows.foldl
      (fun (p : ℚ × Int) r => (p.1 + ((r.average.getD 0 : ℚ)) * (r.weight : ℚ), p.2 + r.weight))
      ((0 : ℚ), (0 : Int))
    if 0 < p.2 then some (roundHalfUp (p.1 / (p.2 : ℚ))) else none

/-- `tasks.value.find(t => t.name === nm && t.category === c)` followed by
`task.percentage = p`: set the percentage of the first task whose name and
category both match; no-op when no task matches. -/
def setFirstMatch : List Task → String → String → Option Int → List Task
  | [], _, _, _ => []
  | t :: rest, nm, c, p =>
    if t.name = nm ∧ t.category = some c then { t with percentage := p } :: rest
    else t :: setFirstMatch rest nm c p

/-- The shared tail of `updatePercentage` and `restoreOriginalValue`: resolve
the `(categoryIndex, taskIndex)` coordinate through `gradeAverages` to a row
name and category, then overwrite the first matching task's percentage.  The
view only emits in-range coordinates; an out-of-range coordinate is modelled
as leaving the list unchanged. -/
def applyEdit (categories : List Category) (tasks : List Task) (ci ti : Nat)
    (p : Option Int) : List Task :=
  match (gradeAverages categories tasks)[ci]? with
  | none => tasks
  | some row =>
    match row.tasks[ti]? with
    | none => tasks
    | some rt => setFirstMatch tasks rt.name row.category p

/-- `updatePercentage(categoryIndex, taskIndex, value)` from `src/App.vue`:
an empty string clears the percentage; otherwise the value is `parseInt`ed
and silently rejected when it is `NaN` or outside `[0, 100]`. -/
def updatePercentage (categories : List Category) (tasks : List Task) (ci ti : Nat)
    (value : String) : List Task :=
  if value = "" then applyEdit categories tasks ci ti none
  else
    match jsParseInt value.data with
    | none => tasks
    | some n =>
      if n < 0 ∨ 100 < n then tasks else applyEdit categories tasks ci ti (some n)

/-- `restoreOriginalValue(categoryIndex, taskIndex)` from `src/App.vue`: look
the coordinate up in the baseline snapshot `originalGradeAverages` and write
the baseline percentage back through the same first-match task lookup. -/
def restoreOriginalValue (categories : List Category) (tasks : List Task)
    (baseline : List CatRow) (ci ti : Nat) : List Task :=
  match baseline[ci]? with
  | none => tasks
  | some orow =>
    match orow.tasks[ti]? with
    | none => tasks
    | some ort => applyEdit categories tasks ci ti ort.percentage

/-- `SESSION_TIMEOUT` from `server/index.js`: 48 hours in milliseconds. -/
def SESSION_TIMEOUT : Int := 48 * 60 * 60 * 1000

/-- A stored session record. -/
structure Session where
  username : String
  cookie : String
  createdAt : Int
  lastAccess : Int
deriving DecidableEq, Repr

/-- The `userSessions` map, sessionId-keyed. -/
abbrev SessionStore := List (String × Session)

/-- `userSessions.get(sessionId)`. -/
def storeGet : SessionStore → String → Option Session
  | [], _ => none
  | (k, s) :: rest, id2 => if k = id2 then some s else storeGet rest id2

/-- `userSessions.delete(sessionId)`. -/
def storeDelete : SessionStore → String → SessionStore
  | [], _ => []
  | (k, s) :: rest, id2 =>
    if k = id2 then storeDelete rest id2 else (k, s) :: storeDelete rest id2

/-- `userSessions.set(sessionId, session)` (in-place update of the entry the
mutation `session.lastAccess = Date.now()` acts on). -/
def storeSet : SessionStore → String → Session → SessionStore
  | [], id2, sess => [(id2, sess)]
  | (k, s) :: rest, id2, sess =>
    if k = id2 then (k, sess) :: rest else (k, s) :: storeSet rest id2 sess

/-- `isSessionValid(session)` from `server/index.js` on a non-null session:
the time elapsed since `lastAccess` is strictly below `SESSION_TIMEOUT`. -/
def isSessionValid (now : Int) (s : Session) : Bool :=
  decide (now - s.lastAccess < SESSION_TIMEOUT)

/-- `getValidSession(sessionId)` from `server/index.js` as a state
transition on the session store at time `now`: a missing session yields
`null`; a present-but-expired session is deleted and yields `null`; a valid
session gets `lastAccess` refreshed to `now` and is returned. -/
def getValidSession (st : SessionStore) (now : Int) (id2 : String) :
    Option Session × SessionStore :=
  match storeGet st id2 with
  | none => (none, st)
  | some sess =>
    if isSessionValid now sess then
      let sess2 := { sess with lastAccess := now }
      (some sess2, storeSet st id2 sess2)
    else (none, storeDelete st id2)

/-- The upstream outcome observed by the login handler's `try` block: either
the portal POST completed with a body and `Set-Cookie` list, or some step of
the exchange threw (network failure). -/
inductive UpstreamLogin where
  | netFail : UpstreamLogin
  | response (body : String) (setCookie : List String) : UpstreamLogin
deriving DecidableEq, Repr

/-- The HTTP response the login route sends back. -/
inductive LoginResponse where
  | err (status : Nat) (message : String) : LoginResponse
  | success : LoginResponse
deriving DecidableEq, Repr

/-- The portal's literal invalid-credential marker checked by the handler. -/
def invalidCredentialMarker : String := "Invalid login or password"

/-- The decision logic of `app.post('/api/login')` in `server/index.js`:
missing credentials give 400; a thrown upstream exchange gives the catch-all
401; a body containing the invalid-credential marker gives 401 Invalid
username or password; an empty `Set-Cookie` list gives 401 Login failed;
otherwise the login succeeds. -/
def loginPost (username password : String) (upstream : UpstreamLogin) : LoginResponse :=
  if username = "" ∨ password = "" then .err 400 "Username and password required"
  else
    match upstream with
    | .netFail => .err 401 "Login failed - please check your credentials"
    | .response body cookies =>
      if jsIncludes body.data invalidCredentialMarker.data then
        .err 401 "Invalid username or password"
      else if cookies.isEmpty then .err 401 "Login failed"
      else .success

/-! ### Lemmas about splitting and parsing points strings -/

lemma jsSplitSlash_no_slash (l : List Char) (h : '/' ∉ l) : jsSplitSlash l = [l] := by
  induction l with
  | nil => rfl
  | cons c rest ih =>
    have hc : ¬ c = '/' := fun hcq => h (hcq ▸ List.mem_cons_self c rest)
    rw [jsSplitSlash, if_neg hc, ih (fun hm => h (List.mem_cons_of_mem c hm))]

lemma jsSplitSlash_append (la lb : List Char) (ha : '/' ∉ la) :
    jsSplitSlash (la ++ '/' :: lb) = la :: jsSplitSlash lb := by
  induction la with
  | nil => rw [List.nil_append, jsSplitSlash, if_pos rfl]
  | cons c rest ih =>
    have hc : ¬ c = '/' := fun hcq => ha (hcq ▸ List.mem_cons_self c rest)
    rw [List.cons_append, jsSplitSlash, if_neg hc, ih (fun hm => ha (List.mem_cons_of_mem c hm))]

/-- Evaluating `calculatePercentage` on a points string made of two
slash-free sides: it reduces to the parse of the two sides. -/
lemma calculatePercentage_split (la lb : List Char) (ha : '/' ∉ la) (hb : '/' ∉ lb) :
    calculatePercentage (some (String.mk (la ++ '/' :: lb))) =
      match jsParseFloat (jsTrim (stripPts la)), jsParseFloat (jsTrim (stripPts lb)) with
      | some earned, some total =>
        if 0 < total then some (roundHalfUp (earned / total * 100)) else none
      | some _, none => none
      | none, _ => none := by
  have hmem : '/' ∈ (la ++ '/' :: lb) := List.mem_append_right _ (List.mem_cons_self _ _)
  have hcont : (la ++ '/' :: lb).contains '/' = true := by simp [List.contains, hmem]
  have hne : (la ++ '/' :: lb).isEmpty = false := by cases la <;> simp [List.isEmpty]
  show (if (la ++ '/' :: lb).isEmpty then none
    else if !((la ++ '/' :: lb).contains '/') then none
    else match jsSplitSlash (la ++ '/' :: lb) with
      | ea :: tb :: _ =>
        match jsParseFloat (jsTrim (stripPts ea)), jsParseFloat (jsTrim (stripPts tb)) with
        | some earned, some total =>
          if 0 < total then some (roundHalfUp (earned / total * 100)) else none
        | some _, none => none
        | none, _ => none
      | _ => none) = _
  rw [hne, hcont, jsSplitSlash_append la lb ha, jsSplitSlash_no_slash lb hb]
  rfl

/-- A scan result determines the parse result. -/
lemma jsParseFloat_eval (cs : List Char) (p : FloatParts) (h : jsParseFloatScan cs = some p) :
    jsParseFloat cs = some (floatPartsVal p) := by
  rw [jsParseFloat, h]; rfl

/-- A plain unsigned integer literal parses to its digit value. -/
lemma jsParseFloat_intLit (cs ds : List Char) (n : Nat)
    (h1 : jsParseFloatScan cs = some ⟨false, ds, [], false, []⟩)
    (h2 : digitsToNat ds = n) :
    jsParseFloat cs = some (n : ℚ) := by
  rw [jsParseFloat_eval cs _ h1]
  have hz : digitsToNat ([] : List Char) = 0 := rfl
  simp [floatPartsVal, h2, hz]

/-- A failed scan means a failed parse. -/
lemma jsParseFloat_none (cs : List Char) (h : jsParseFloatScan cs = none) :
    jsParseFloat cs = none := by
  rw [jsParseFloat, h]; rfl

/-- Claim C2: for every points string `"a/b"` whose two sides (after
stripping a trailing `pts` unit and whitespace) parse as numbers with
`b > 0`, the percentage equals `round(100·a/b)` rounded half-up; when either
side fails to parse, or `b ≤ 0`, or the string is absent or has no `/`, the
percentage is absent. -/
theorem claim_C2_percentage (la lb : List Char) (qa qb : ℚ)
    (ha : '/' ∉ la) (hb : '/' ∉ lb) :
    (jsParseFloat (jsTrim (stripPts la)) = some qa →
      jsParseFloat (jsTrim (stripPts lb)) = some qb →
      (0 < qb →
        calculatePercentage (some (String.mk (la ++ '/' :: lb))) =
          some (roundHalfUp (100 * qa / qb))) ∧
      (qb ≤ 0 → calculatePercentage (some (String.mk (la ++ '/' :: lb))) = none)) ∧
    (jsParseFloat (jsTrim (stripPts la)) = none →
      calculatePercentage (some (String.mk (la ++ '/' :: lb))) = none) ∧
    (jsParseFloat (jsTrim (stripPts lb)) = none →
      calculatePercentage (some (String.mk (la ++ '/' :: lb))) = none) ∧
    calculatePercentage none = none ∧
    (∀ s : String, '/' ∉ s.data → calculatePercentage (some s) = none) := by
  refine ⟨fun hqa hqb => ⟨fun hpos => ?_, fun hnonpos => ?_⟩, fun hna => ?_, fun hnb => ?_,
    rfl, fun s hs => ?_⟩
  · rw [calculatePercentage_split la lb ha hb, hqa, hqb]
    simp only [if_pos hpos]
    congr 1
    congr 1
    ring
  · rw [calculatePercentage_split la lb ha hb, hqa, hqb]
    simp only [if_neg (not_lt.mpr hnonpos)]
  · rw [calculatePercentage_split la lb ha hb, hna]
  · rw [calculatePercentage_split la lb ha hb, hnb]
    cases jsParseFloat (jsTrim (stripPts la)) <;> rfl
  · have hcont : s.data.contains '/' = false := by simp [List.contains, hs]
    show (if s.data.isEmpty then none
      else if !(s.data.contains '/') then none
      else match jsSplitSlash s.data with
        | ea :: tb :: _ =>
          match jsParseFloat (jsTrim (stripPts ea)), jsParseFloat (jsTrim (stripPts tb)) with
          | some earned, some total =>
            if 0 < total then some (roundHalfUp (earned / total * 100)) else none
          | some _, none => none
          | none, _ => none
        | _ => none) = none
    rw [hcont]
    cases h : s.data.isEmpty <;> simp

/-- Witness for C2 at the concrete points string `"9/10"`. -/
theorem claim_C2_percentage_witness :
    ('/' ∉ (['9'] : List Char)) ∧ ('/' ∉ (['1', '0'] : List Char)) ∧
    jsParseFloat (jsTrim (stripPts ['9'])) = some 9 ∧
    jsParseFloat (jsTrim (stripPts ['1', '0'])) = some 10 ∧ (0 : ℚ) < 10 ∧
    calculatePercentage (some (String.mk (['9'] ++ '/' :: ['1', '0']))) =
      some (roundHalfUp (100 * 9 / 10)) := by
  have h9 : jsParseFloat (jsTrim (stripPts ['9'])) = some 9 := by
    rw [jsParseFloat_intLit _ ['9'] 9 (by decide) (by decide)]; norm_num
  have h10 : jsParseFloat (jsTrim (stripPts ['1', '0'])) = some 10 := by
    rw [jsParseFloat_intLit _ ['1', '0'] 10 (by decide) (by decide)]; norm_num
  have h0 : (0 : ℚ) < 10 := by norm_num
  exact ⟨by decide, by decide, h9, h10, h0,
    (((claim_C2_percentage ['9'] ['1', '0'] 9 10 (by decide) (by decide)).1 h9 h10).1 h0)⟩

/-! ### C3: range of extracted percentages -/

lemma percentage_eq_of_mem_loop (classId : String) (fs : List Fragment) (i : Nat)
    (t : Task) (ht : t ∈ fetchTasksLoop classId fs i) :
    t.percentage = calculatePercentage t.points := by
  induction fs generalizing i with
  | nil => cases ht
  | cons f rest ih =>
    rw [fetchTasksLoop] at ht
    cases hnm : f.nameMatch with
    | none => rw [hnm] at ht; exact ih _ ht
    | some nm =>
      rw [hnm] at ht
      rcases List.mem_cons.mp ht with h | h
      · subst h; rfl
      · exact ih _ h

/-- Claim C3 (amended): every extracted task's percentage is derived from its
points string by `calculatePercentage`, and that value lies in `[0, 100]`
whenever the parsed earned value lies between `0` and the parsed total; when
the earned value is negative or exceeds the total the stored percentage can
leave `[0, 100]`, as the counterexample shows. -/
theorem claim_C3_percentage_range (classId : String) (fs : List Fragment) (t : Task)
    (la lb : List Char) (qa qb : ℚ)
    (ht : t ∈ fetchTasks classId fs)
    (ha : '/' ∉ la) (hb : '/' ∉ lb)
    (hqa : jsParseFloat (jsTrim (stripPts la)) = some qa)
    (hqb : jsParseFloat (jsTrim (stripPts lb)) = some qb)
    (h0 : 0 ≤ qa) (hle : qa ≤ qb) (hpos : 0 < qb) :
    t.percentage = calculatePercentage t.points ∧
    ∃ p : Int, calculatePercentage (some (String.mk (la ++ '/' :: lb))) = some p ∧
      0 ≤ p ∧ p ≤ 100 := by
  refine ⟨percentage_eq_of_mem_loop classId fs 0 t ht, roundHalfUp (qa / qb * 100), ?_, ?_, ?_⟩
  · rw [calculatePercentage_split la lb ha hb, hqa, hqb]
    dsimp only
    rw [if_pos hpos]
  · have hx : (0 : ℚ) ≤ qa / qb * 100 := by positivity
    have : (0 : ℚ) ≤ qa / qb * 100 + 1 / 2 := by linarith
    exact Int.le_floor.mpr (by exact_mod_cast this)
  · have hq1 : qa / qb ≤ 1 := (div_le_one hpos).mpr hle
    have hx : qa / qb * 100 ≤ 100 := by nlinarith
    have hlt : qa / qb * 100 + 1 / 2 < (101 : ℚ) := by linarith
    have hbd := Int.floor_lt.mpr (by exact_mod_cast hlt :
      qa / qb * 100 + 1 / 2 < ((101 : Int) : ℚ))
    have hfl : roundHalfUp (qa / qb * 100) = ⌊qa / qb * 100 + 1 / 2⌋ := rfl
    omega

/-- Counterexample for C3 as stated: the extractor accepts the points string
`"15/10"` and stores percentage 150, which is outside `[0, 100]`. -/
theorem claim_C3_percentage_range_counterexample :
    (fetchTasks "7" [⟨some ("42", "Quiz"), none, none, [], none, some "15/10"⟩]).map
        Task.percentage = [some 150] ∧
    ¬ ((150 : Int) ≤ 100) := by
  constructor
  · have hpts : extractText (some "15/10") = some "15/10" := by decide
    have hsplit : ("15/10" : String) = String.mk (['1', '5'] ++ '/' :: ['1', '0']) := by decide
    have h15 : jsParseFloat (jsTrim (stripPts ['1', '5'])) = some 15 := by
      rw [jsParseFloat_intLit _ ['1', '5'] 15 (by decide) (by decide)]; norm_num
    have h10 : jsParseFloat (jsTrim (stripPts ['1', '0'])) = some 10 := by
      rw [jsParseFloat_intLit _ ['1', '0'] 10 (by decide) (by decide)]; norm_num
    have hcalc : calculatePercentage (some "15/10") = some 150 := by
      rw [hsplit, calculatePercentage_split ['1', '5'] ['1', '0'] (by decide) (by decide),
        h15, h10]
      dsimp only
      rw [if_pos (by norm_num : (0 : ℚ) < 10)]
      norm_num [roundHalfUp]
    simp only [fetchTasks, fetchTasksLoop, hpts, hcalc, List.map]
  · norm_num

/-- Witness for C3 at the points string `"8/10"` of an extracted task. -/
theorem claim_C3_percentage_range_witness :
    (⟨0, "42", "7", "Quiz", none, none, some "8/10", none,
        calculatePercentage (some "8/10")⟩ : Task) ∈
      fetchTasks "7" [⟨some ("42", "Quiz"), none, none, [], none, some "8/10"⟩] ∧
    ∃ p : Int, calculatePercentage (some (String.mk (['8'] ++ '/' :: ['1', '0']))) = some p ∧
      0 ≤ p ∧ p ≤ 100 := by
  have h8 : jsParseFloat (jsTrim (stripPts ['8'])) = some 8 := by
    rw [jsParseFloat_intLit _ ['8'] 8 (by decide) (by decide)]; norm_num
  have h10 : jsParseFloat (jsTrim (stripPts ['1', '0'])) = some 10 := by
    rw [jsParseFloat_intLit _ ['1', '0'] 10 (by decide) (by decide)]; norm_num
  have hmem : (⟨0, "42", "7", "Quiz", none, none, some "8/10", none,
      calculatePercentage (some "8/10")⟩ : Task) ∈
      fetchTasks "7" [⟨some ("42", "Quiz"), none, none, [], none, some "8/10"⟩] := by
    have hpts : extractText (some "8/10") = some "8/10" := by decide
    simp only [fetchTasks, fetchTasksLoop, hpts]
    exact List.mem_cons_self _ _
  exact ⟨hmem,
    (claim_C3_percentage_range "7" [⟨some ("42", "Quiz"), none, none, [], none, some "8/10"⟩]
      _ ['8'] ['1', '0'] 8 10 hmem (by decide) (by decide) h8 h10 (by norm_num) (by norm_num)
      (by norm_num)).2⟩

/-! ### C1: the two final-grade computations and rounding -/

/-- A task with only the aggregation-relevant fields populated. -/
def mkTask (nm : String) (cat : Option String) (p : Option Int) : Task :=
  { id := 0, taskId := "", classId := "", name := nm, date := none,
    category := cat, points := none, grade := none, percentage := p }

/-- Tasks on which rounding once versus rounding twice differ: category `A`
holds percentages 1 and 0 (mean 0.5), category `B` holds 0. -/
def divergenceTasks : List Task :=
  [mkTask "a" (some "A") (some 1), mkTask "b" (some "A") (some 0),
   mkTask "c" (some "B") (some 0)]

/-- Equal-weight categories for the divergence input. -/
def divergenceCats : List Category := [⟨"A", 1, "#fff"⟩, ⟨"B", 1, "#fff"⟩]

/-- Claim C1: on the divergence input the server's `calculateFinalGrade`
computes `round((0.5·1 + 0·1)/2) = 0` from the unrounded category means —
it does not round the category averages first — while the round-twice
procedure the spec mandates (implemented by the client's
`calculateTotalClassAverage` over `gradeAverages`) yields
`round((round(0.5)·1 + 0·1)/2) = 1`.  The two disagree, so the server-side
aggregation does not follow the round-twice procedure. -/
theorem claim_C1_round_twice_divergence :
    calculateFinalGrade divergenceTasks divergenceCats = some 0 ∧
    calculateTotalClassAverage divergenceCats divergenceTasks = some 1 ∧
    (some (0 : Int) ≠ some (1 : Int)) := by
  have hacc : categoryAveragesAcc divergenceTasks = [("A", 1, 2), ("B", 0, 1)] := by decide
  refine ⟨?_, ?_, by decide⟩
  · rw [calculateFinalGrade, hacc]
    simp only [List.foldl, finalGradeStep, lookupAcc, divergenceCats,
      String.reduceEq, reduceIte, List.isEmpty, divergenceTasks, mkTask,
      Bool.or_self, Bool.false_eq_true, if_false]
    norm_num [roundHalfUp]
  · rw [calculateTotalClassAverage, gradeAverages, hacc]
    simp only [List.foldl, List.filter, List.map, lookupAcc, divergenceCats,
      String.reduceEq, reduceIte, List.isEmpty, divergenceTasks, mkTask, mkCatRow,
      Bool.or_self, Bool.false_eq_true, if_false, Option.getD, taskInCat, truthyStr]
    norm_num [roundHalfUp]

/-! ### C7: neutrality of weight-0 and task-free categories -/

lemma lookupAcc_upsert_ne (acc : List AccEntry) (k : String) (v : Int) (nm : String)
    (h : k ≠ nm) : lookupAcc (upsertAcc acc k v) nm = lookupAcc acc nm := by
  induction acc with
  | nil => simp [upsertAcc, lookupAcc, h]
  | cons e rest ih =>
    obtain ⟨k2, t, c⟩ := e
    rw [upsertAcc]
    by_cases hk : k2 = k
    · rw [if_pos hk, lookupAcc, lookupAcc, if_neg (hk ▸ h), if_neg (hk ▸ h)]
    · rw [if_neg hk, lookupAcc, lookupAcc]
      by_cases hnm : k2 = nm
      · rw [if_pos hnm, if_pos hnm]
      · rw [if_neg hnm, if_neg hnm, ih]

lemma lookupAcc_accStep_ne (acc : List AccEntry) (t : Task) (nm : String)
    (h : t.category = some nm → t.percentage = none) :
    lookupAcc (accStep acc t) nm = lookupAcc acc nm := by
  cases hc : t.category with
  | none => cases hp : t.percentage <;> simp [accStep, hc, hp]
  | some s =>
    cases hp : t.percentage with
    | none => simp [accStep, hc, hp]
    | some p =>
      have hs : s ≠ nm := by
        intro hq
        exact Option.some_ne_none p (by simpa [hp] using h (by rw [hc, hq]))
      rw [accStep, hc, hp]
      dsimp only
      by_cases he : s = ""
      · rw [if_pos he]
      · rw [if_neg he, lookupAcc_upsert_ne acc s p nm hs]

lemma lookupAcc_foldl_none (nm : String) : ∀ (tasks : List Task) (acc : List AccEntry),
    (∀ t ∈ tasks, t.category = some nm → t.percentage = none) →
    lookupAcc acc nm = none → lookupAcc (tasks.foldl accStep acc) nm = none := by
  intro tasks
  induction tasks with
  | nil => intro acc _ hacc; exact hacc
  | cons t rest ih =>
    intro acc h hacc
    rw [List.foldl_cons]
    exact ih (accStep acc t)
      (fun t2 ht2 => h t2 (List.mem_cons_of_mem t ht2))
      ((lookupAcc_accStep_ne acc t nm (h t (List.mem_cons_self t rest))).trans hacc)

/-- A category none of whose tasks carries a percentage has no entry in the
`categoryAverages` accumulator. -/
lemma lookupAcc_none_of_no_task (tasks : List Task) (nm : String)
    (h : ∀ t ∈ tasks, t.category = some nm → t.percentage = none) :
    lookupAcc (categoryAveragesAcc tasks) nm = none :=
  lookupAcc_foldl_none nm tasks [] h rfl

/-- Removing a category on which the fold step is the identity does not
change `calculateFinalGrade`. -/
lemma calculateFinalGrade_skip (tasks : List Task) (cats1 cats2 : List Category)
    (c : Category)
    (hid : ∀ p : ℚ × Int, finalGradeStep (categoryAveragesAcc tasks) p c = p) :
    calculateFinalGrade tasks (cats1 ++ c :: cats2) =
      calculateFinalGrade tasks (cats1 ++ cats2) := by
  rw [calculateFinalGrade, calculateFinalGrade]
  cases ht : tasks.isEmpty with
  | true => simp only [ht, Bool.or_true, if_true]
  | false =>
    have hL : (cats1 ++ c :: cats2).isEmpty = false := by
      cases cats1 <;> rfl
    cases hR : (cats1 ++ cats2).isEmpty with
    | true =>
      have h12 : cats1 = [] ∧ cats2 = [] := by
        cases cats1 with
        | nil => exact ⟨rfl, by simpa [List.isEmpty_iff] using hR⟩
        | cons a l => simp [List.isEmpty] at hR
      obtain ⟨h1, h2⟩ := h12
      subst h1; subst h2
      simp only [ht, hL, hR, Bool.or_false, Bool.or_true, if_true, Bool.false_eq_true,
        if_false, List.nil_append, List.foldl_cons, List.foldl_nil, hid]
      norm_num [List.isEmpty]
    | false =>
      simp only [ht, hL, hR, Bool.or_false, Bool.false_eq_true, if_false]
      rw [List.foldl_append, List.foldl_cons, hid, ← List.foldl_append]

/-- Claim C7: removing a weight-0 category never changes the computed
final grade, and adding (equivalently, removing) a positive-weight category
none of whose tasks has a non-absent percentage never changes it either. -/
theorem claim_C7_category_neutrality (tasks : List Task) (cats1 cats2 : List Category)
    (c : Category) :
    (c.weight = 0 →
      calculateFinalGrade tasks (cats1 ++ c :: cats2) =
        calculateFinalGrade tasks (cats1 ++ cats2)) ∧
    (0 < c.weight →
      (∀ t ∈ tasks, t.category = some c.name → t.percentage = none) →
      calculateFinalGrade tasks (cats1 ++ c :: cats2) =
        calculateFinalGrade tasks (cats1 ++ cats2)) := by
  constructor
  · intro hw
    refine calculateFinalGrade_skip tasks cats1 cats2 c (fun p => ?_)
    rw [finalGradeStep, if_neg (by omega)]
  · intro _ hno
    refine calculateFinalGrade_skip tasks cats1 cats2 c (fun p => ?_)
    rw [finalGradeStep, lookupAcc_none_of_no_task tasks c.name hno]
    split <;> rfl

/-- Witness for C7: a weight-0 category `Z` and a task-free weight-5
category `B` are both neutral on a concrete input. -/
theorem claim_C7_category_neutrality_witness :
    ((⟨"Z", 0, "#0"⟩ : Category).weight = 0 ∧
      calculateFinalGrade [mkTask "a" (some "A") (some 50)]
          ([⟨"A", 1, "#f"⟩] ++ ⟨"Z", 0, "#0"⟩ :: []) =
        calculateFinalGrade [mkTask "a" (some "A") (some 50)] ([⟨"A", 1, "#f"⟩] ++ [])) ∧
    ((0 : Int) < (⟨"B", 5, "#b"⟩ : Category).weight ∧
      calculateFinalGrade [mkTask "a" (some "A") (some 50)]
          ([⟨"A", 1, "#f"⟩] ++ ⟨"B", 5, "#b"⟩ :: []) =
        calculateFinalGrade [mkTask "a" (some "A") (some 50)] ([⟨"A", 1, "#f"⟩] ++ [])) := by
  constructor
  · exact ⟨rfl,
      (claim_C7_category_neutrality [mkTask "a" (some "A") (some 50)] [⟨"A", 1, "#f"⟩] []
        ⟨"Z", 0, "#0"⟩).1 rfl⟩
  · exact ⟨by norm_num,
      (claim_C7_category_neutrality [mkTask "a" (some "A") (some 50)] [⟨"A", 1, "#f"⟩] []
        ⟨"B", 5, "#b"⟩).2 (by norm_num) (by decide)⟩

/-! ### C4: extraction skips malformed fragments and never fails -/

lemma fetchTasksLoop_skip (classId : String) (fs1 fs2 : List Fragment) (f : Fragment)
    (hf : f.nameMatch = none) :
    ∀ i, fetchTasksLoop classId (fs1 ++ f :: fs2) i = fetchTasksLoop classId (fs1 ++ fs2) i := by
  induction fs1 with
  | nil =>
    intro i
    rw [List.nil_append, List.nil_append, fetchTasksLoop, hf]
  | cons g rest ih =>
    intro i
    rw [List.cons_append, List.cons_append, fetchTasksLoop, fetchTasksLoop]
    cases g.nameMatch with
    | none => exact ih i
    | some nm => rw [ih (i + 1)]

lemma fetchTasksLegacyLoop_error (classId : String) (fs1 fs2 : List Fragment) (f : Fragment)
    (hf : f.nameMatch = none) (h1 : ∀ g ∈ fs1, g.nameMatch ≠ none) :
    ∀ i, fetchTasksLegacyLoop classId (fs1 ++ f :: fs2) i = .error f := by
  induction fs1 with
  | nil =>
    intro i
    rw [List.nil_append, fetchTasksLegacyLoop, hf]
  | cons g rest ih =>
    intro i
    rw [List.cons_append, fetchTasksLegacyLoop]
    cases hg : g.nameMatch with
    | none => exact absurd hg (h1 g (List.mem_cons_self g rest))
    | some nm =>
      rw [ih (fun x hx => h1 x (List.mem_cons_of_mem g hx)) (i + 1)]

/-- Claim C4: on the current extractor (`fetchTasks`, from `server/index.js`)
a fragment whose required id+name anchor is missing is skipped and the
remaining fragments are extracted exactly as if it were not there, no
fragments yield the empty task list, and totality of the Lean function
models never throwing.  On the legacy extractor the claim also cites
(`src/unnamed/part_000`), the same anchorless fragment instead makes the
loop throw — the error discards every extracted record — and the route's
`catch` fails the whole request with `500 Failed to fetch tasks`: the claim
fails there (extraction neither skips nor continues), while no fragments
still yield an empty list. -/
theorem claim_C4_extraction_fragment_handling (classId : String) (fs1 fs2 : List Fragment)
    (f : Fragment) (hf : f.nameMatch = none) (h1 : ∀ g ∈ fs1, g.nameMatch ≠ none) :
    fetchTasks classId (fs1 ++ f :: fs2) = fetchTasks classId (fs1 ++ fs2) ∧
    fetchTasks classId [] = [] ∧
    fetchTasksLegacy classId (fs1 ++ f :: fs2) = .error f ∧
    legacyTasksRoute classId (fs1 ++ f :: fs2) = .serverError 500 "Failed to fetch tasks" ∧
    fetchTasksLegacy classId [] = .ok [] := by
  have hleg : fetchTasksLegacy classId (fs1 ++ f :: fs2) = .error f :=
    fetchTasksLegacyLoop_error classId fs1 fs2 f hf h1 0
  refine ⟨fetchTasksLoop_skip classId fs1 fs2 f hf 0, rfl, hleg, ?_, rfl⟩
  rw [legacyTasksRoute, hleg]

/-- Witness for C4: a malformed fragment between two well-formed ones; the
current extractor drops it, the legacy one fails the whole request. -/
theorem claim_C4_extraction_fragment_handling_witness :
    (⟨none, none, none, [], none, some "3/4"⟩ : Fragment).nameMatch = none ∧
    (∀ g ∈ [(⟨some ("1", "T1"), none, none, [], none, none⟩ : Fragment)],
      g.nameMatch ≠ none) ∧
    fetchTasks "9"
        [⟨some ("1", "T1"), none, none, [], none, none⟩,
         ⟨none, none, none, [], none, some "3/4"⟩,
         ⟨some ("2", "T2"), none, none, [], none, none⟩] =
      fetchTasks "9"
        [⟨some ("1", "T1"), none, none, [], none, none⟩,
         ⟨some ("2", "T2"), none, none, [], none, none⟩] ∧
    fetchTasks "9" [] = [] ∧
    fetchTasksLegacy "9"
        [⟨some ("1", "T1"), none, none, [], none, none⟩,
         ⟨none, none, none, [], none, some "3/4"⟩,
         ⟨some ("2", "T2"), none, none, [], none, none⟩] =
      .error ⟨none, none, none, [], none, some "3/4"⟩ ∧
    legacyTasksRoute "9"
        [⟨some ("1", "T1"), none, none, [], none, none⟩,
         ⟨none, none, none, [], none, some "3/4"⟩,
         ⟨some ("2", "T2"), none, none, [], none, none⟩] =
      .serverError 500 "Failed to fetch tasks" ∧
    fetchTasksLegacy "9" [] = .ok [] := by
  obtain ⟨ha, hb, hc, hd, he⟩ := claim_C4_extraction_fragment_handling "9"
    [⟨some ("1", "T1"), none, none, [], none, none⟩]
    [⟨some ("2", "T2"), none, none, [], none, none⟩]
    ⟨none, none, none, [], none, some "3/4"⟩ rfl (by decide)
  exact ⟨rfl, by decide, ha, hb, hc, hd, he⟩

/-! ### C5: sliding session expiration -/

lemma storeGet_storeDelete (st : SessionStore) (id2 : String) :
    storeGet (storeDelete st id2) id2 = none := by
  induction st with
  | nil => rfl
  | cons e rest ih =>
    obtain ⟨k, s⟩ := e
    rw [storeDelete]
    by_cases hk : k = id2
    · rw [if_pos hk]; exact ih
    · rw [if_neg hk, storeGet, if_neg hk]; exact ih

lemma storeGet_storeSet (st : SessionStore) (id2 : String) (sess : Session) :
    storeGet (storeSet st id2 sess) id2 = some sess := by
  induction st with
  | nil => rw [storeSet, storeGet, if_pos rfl]
  | cons e rest ih =>
    obtain ⟨k, s⟩ := e
    rw [storeSet]
    by_cases hk : k = id2
    · rw [if_pos hk, storeGet, if_pos hk]
    · rw [if_neg hk, storeGet, if_neg hk]; exact ih

/-- Claim C5: a `get` whose elapsed time since `lastAccess` exceeds the fixed
48-hour `SESSION_TIMEOUT` deletes the entry and returns nothing, after which
any later `get` of the same sessionId also returns nothing (the id is
indistinguishable from one never stored); and every successful `get` updates
the session's `lastAccess` to the current time, both in the returned session
and in the store (sliding expiration). -/
lemma getValidSession_of_invalid (st : SessionStore) (now : Int) (id2 : String)
    (s : Session) (hs : storeGet st id2 = some s) (hv : isSessionValid now s = false) :
    getValidSession st now id2 = (none, storeDelete st id2) := by
  rw [getValidSession, hs]
  dsimp only
  rw [hv]
  rfl

lemma getValidSession_of_valid (st : SessionStore) (now : Int) (id2 : String)
    (s : Session) (hs : storeGet st id2 = some s) (hv : isSessionValid now s = true) :
    getValidSession st now id2 =
      (some { s with lastAccess := now }, storeSet st id2 { s with lastAccess := now }) := by
  rw [getValidSession, hs]
  dsimp only
  rw [hv]
  rfl

theorem claim_C5_session_expiry (st : SessionStore) (now now2 : Int) (id2 : String)
    (s : Session) (hs : storeGet st id2 = some s) :
    (SESSION_TIMEOUT < now - s.lastAccess →
      getValidSession st now id2 = (none, storeDelete st id2) ∧
      storeGet (getValidSession st now id2).2 id2 = none ∧
      (getValidSession (getValidSession st now id2).2 now2 id2).1 = none) ∧
    (∀ s2 st2, getValidSession st now id2 = (some s2, st2) →
      s2.lastAccess = now ∧ storeGet st2 id2 = some s2) := by
  constructor
  · intro hexp
    have hv : isSessionValid now s = false := by
      rw [isSessionValid, decide_eq_false_iff_not]
      omega
    have hmain := getValidSession_of_invalid st now id2 s hs hv
    refine ⟨hmain, ?_, ?_⟩
    · rw [hmain]
      exact storeGet_storeDelete st id2
    · rw [hmain, getValidSession, storeGet_storeDelete st id2]
  · intro s2 st2 hok
    cases hv : isSessionValid now s with
    | false =>
      rw [getValidSession_of_invalid st now id2 s hs hv] at hok
      exact Option.noConfusion (congrArg Prod.fst hok)
    | true =>
      rw [getValidSession_of_valid st now id2 s hs hv, Prod.mk.injEq] at hok
      obtain ⟨h1, h2⟩ := hok
      injection h1 with h1
      subst h1
      subst h2
      exact ⟨rfl, storeGet_storeSet st id2 _⟩

/-- Witness for C5: an entry last accessed at time 0 queried just past the
timeout, and a fresh entry queried at time 5. -/
theorem claim_C5_session_expiry_witness :
    storeGet [("s", ⟨"u", "c", 0, 0⟩)] "s" = some ⟨"u", "c", 0, 0⟩ ∧
    SESSION_TIMEOUT < (SESSION_TIMEOUT + 1) - (⟨"u", "c", 0, 0⟩ : Session).lastAccess ∧
    getValidSession [("s", ⟨"u", "c", 0, 0⟩)] (SESSION_TIMEOUT + 1) "s" =
      (none, storeDelete [("s", ⟨"u", "c", 0, 0⟩)] "s") ∧
    (getValidSession [("s", ⟨"u", "c", 0, 0⟩)] (SESSION_TIMEOUT + 1) "s").2 = [] ∧
    (⟨"u", "c", 0, 5⟩ : Session).lastAccess = 5 ∧
    storeGet [("s", (⟨"u", "c", 0, 5⟩ : Session))] "s" = some ⟨"u", "c", 0, 5⟩ := by
  have hexp := (claim_C5_session_expiry [("s", ⟨"u", "c", 0, 0⟩)] (SESSION_TIMEOUT + 1) 0
    "s" ⟨"u", "c", 0, 0⟩ (by decide)).1 (by norm_num [SESSION_TIMEOUT])
  have hok := (claim_C5_session_expiry [("s", ⟨"u", "c", 0, 0⟩)] 5 0 "s" ⟨"u", "c", 0, 0⟩
    (by decide)).2 ⟨"u", "c", 0, 5⟩ [("s", ⟨"u", "c", 0, 5⟩)] (by decide)
  exact ⟨by decide, by norm_num [SESSION_TIMEOUT], hexp.1, by decide, hok.1, hok.2⟩

/-! ### C6: classification of login failures -/

/-- Claim C6: with credentials present, the login route answers with the
invalid-credential response exactly when the upstream body contains the
portal's literal invalid-credential marker; a marker-free response with no
`Set-Cookie` data yields the Login failed response; a thrown upstream
exchange yields the catch-all response; and the three error responses are
pairwise distinct. -/
theorem claim_C6_login_errors (u pw : String) (hu : u ≠ "") (hp : pw ≠ "") :
    (∀ body cookies,
      loginPost u pw (.response body cookies) = .err 401 "Invalid username or password" ↔
        jsIncludes body.data invalidCredentialMarker.data = true) ∧
    (∀ body, jsIncludes body.data invalidCredentialMarker.data = false →
      loginPost u pw (.response body []) = .err 401 "Login failed") ∧
    loginPost u pw .netFail = .err 401 "Login failed - please check your credentials" ∧
    ((.err 401 "Login failed - please check your credentials" : LoginResponse) ≠
      .err 401 "Invalid username or password") ∧
    ((.err 401 "Login failed - please check your credentials" : LoginResponse) ≠
      .err 401 "Login failed") ∧
    ((.err 401 "Invalid username or password" : LoginResponse) ≠ .err 401 "Login failed") := by
  have hcred : ¬ (u = "" ∨ pw = "") := by
    rintro (h | h)
    · exact hu h
    · exact hp h
  refine ⟨fun body cookies => ?_, fun body hb => ?_, ?_, by decide, by decide, by decide⟩
  · constructor
    · intro h
      by_cases hm : jsIncludes body.data invalidCredentialMarker.data = true
      · exact hm
      · exfalso
        rw [loginPost, if_neg hcred] at h
        rw [Bool.not_eq_true] at hm
        rw [hm] at h
        cases hc : cookies.isEmpty <;> rw [hc] at h <;> exact absurd h (by decide)
    · intro hm
      rw [loginPost, if_neg hcred]
      rw [hm]
      rfl
  · rw [loginPost, if_neg hcred]
    rw [hb]
    rfl
  · rw [loginPost, if_neg hcred]

/-- Witness for C6 at concrete credentials and bodies. -/
theorem claim_C6_login_errors_witness :
    ("alice" : String) ≠ "" ∧ ("pw" : String) ≠ "" ∧
    loginPost "alice" "pw" (.response "<p>Invalid login or password</p>" ["a=1"]) =
      .err 401 "Invalid username or password" ∧
    loginPost "alice" "pw" (.response "<p>Welcome</p>" []) = .err 401 "Login failed" ∧
    loginPost "alice" "pw" .netFail =
      .err 401 "Login failed - please check your credentials" := by
  have hthm := claim_C6_login_errors "alice" "pw" (by decide) (by decide)
  exact ⟨by decide, by decide,
    (hthm.1 "<p>Invalid login or password</p>" ["a=1"]).mpr (by decide),
    hthm.2.1 "<p>Welcome</p>" (by decide),
    hthm.2.2.1⟩

/-! ### C9: which override values are accepted -/

/-- Counterexample for C9 as stated: the non-integer string "50.7" is not an
integer in `[0, 100]` nor the clear sentinel, yet the edit is not rejected —
`parseInt` truncates it to 50 and the stored percentage changes. -/
theorem claim_C9_setPercentage_validation_counterexample :
    updatePercentage [⟨"C", 1, "#f"⟩] [mkTask "x" (some "C") (some 10)] 0 0 "50.7" =
      [mkTask "x" (some "C") (some 50)] ∧
    updatePercentage [⟨"C", 1, "#f"⟩] [mkTask "x" (some "C") (some 10)] 0 0 "50.7" ≠
      [mkTask "x" (some "C") (some 10)] := by
  exact ⟨by decide, by decide⟩

/-- Claim C9 (amended): `updatePercentage` clears the percentage on the empty
sentinel, accepts exactly the values whose `parseInt` result is an integer in
`[0, 100]` — storing the parsed integer, so strings such as "50.7" are
accepted as 50 — and silently rejects every value whose `parseInt` is `NaN`
or out of range, leaving the task list unchanged; in particular "101", "-1"
and "abc" are rejected and "0" and "100" accepted. -/
theorem claim_C9_setPercentage_validation (categories : List Category) (tasks : List Task)
    (ci ti : Nat) (v : String) :
    (v ≠ "" → jsParseInt v.data = none → updatePercentage categories tasks ci ti v = tasks) ∧
    (v ≠ "" → ∀ n, jsParseInt v.data = some n → (n < 0 ∨ 100 < n) →
      updatePercentage categories tasks ci ti v = tasks) ∧
    (updatePercentage categories tasks ci ti "" = applyEdit categories tasks ci ti none) ∧
    (v ≠ "" → ∀ n, jsParseInt v.data = some n → 0 ≤ n → n ≤ 100 →
      updatePercentage categories tasks ci ti v = applyEdit categories tasks ci ti (some n)) := by
  refine ⟨fun hv hn => ?_, fun hv n hn hout => ?_, ?_, fun hv n hn h0 h100 => ?_⟩
  · rw [updatePercentage, if_neg hv, hn]
  · rw [updatePercentage, if_neg hv, hn]
    dsimp only
    rw [if_pos hout]
  · rw [updatePercentage, if_pos rfl]
  · rw [updatePercentage, if_neg hv, hn]
    dsimp only
    rw [if_neg (by omega)]

/-- Witness for C9: the boundary values on a concrete class. -/
theorem claim_C9_setPercentage_validation_witness :
    updatePercentage [⟨"C", 1, "#f"⟩] [mkTask "x" (some "C") (some 10)] 0 0 "abc" =
      [mkTask "x" (some "C") (some 10)] ∧
    updatePercentage [⟨"C", 1, "#f"⟩] [mkTask "x" (some "C") (some 10)] 0 0 "101" =
      [mkTask "x" (some "C") (some 10)] ∧
    updatePercentage [⟨"C", 1, "#f"⟩] [mkTask "x" (some "C") (some 10)] 0 0 "-1" =
      [mkTask "x" (some "C") (some 10)] ∧
    updatePercentage [⟨"C", 1, "#f"⟩] [mkTask "x" (some "C") (some 10)] 0 0 "" =
      applyEdit [⟨"C", 1, "#f"⟩] [mkTask "x" (some "C") (some 10)] 0 0 none ∧
    updatePercentage [⟨"C", 1, "#f"⟩] [mkTask "x" (some "C") (some 10)] 0 0 "0" =
      applyEdit [⟨"C", 1, "#f"⟩] [mkTask "x" (some "C") (some 10)] 0 0 (some 0) ∧
    updatePercentage [⟨"C", 1, "#f"⟩] [mkTask "x" (some "C") (some 10)] 0 0 "100" =
      applyEdit [⟨"C", 1, "#f"⟩] [mkTask "x" (some "C") (some 10)] 0 0 (some 100) := by
  refine ⟨?_, ?_, ?_, ?_, ?_, ?_⟩
  · exact (claim_C9_setPercentage_validation [⟨"C", 1, "#f"⟩]
      [mkTask "x" (some "C") (some 10)] 0 0 "abc").1 (by decide) (by decide)
  · exact (claim_C9_setPercentage_validation [⟨"C", 1, "#f"⟩]
      [mkTask "x" (some "C") (some 10)] 0 0 "101").2.1 (by decide) 101 (by decide) (by omega)
  · exact (claim_C9_setPercentage_validation [⟨"C", 1, "#f"⟩]
      [mkTask "x" (some "C") (some 10)] 0 0 "-1").2.1 (by decide) (-1) (by decide) (by omega)
  · exact (claim_C9_setPercentage_validation [⟨"C", 1, "#f"⟩]
      [mkTask "x" (some "C") (some 10)] 0 0 "x").2.2.1
  · exact (claim_C9_setPercentage_validation [⟨"C", 1, "#f"⟩]
      [mkTask "x" (some "C") (some 10)] 0 0 "0").2.2.2 (by decide) 0 (by decide) (by omega)
      (by omega)
  · exact (claim_C9_setPercentage_validation [⟨"C", 1, "#f"⟩]
      [mkTask "x" (some "C") (some 10)] 0 0 "100").2.2.2 (by decide) 100 (by decide) (by omega)
      (by omega)

/-! ### Shared lemmas about the client row resolution and first-match edits -/

/-- The (name, category) projection of a task; row resolution and the
first-match lookup depend on a task list only through it. -/
def projNC (t : Task) : String × Option String := (t.name, t.category)

/-- `taskInCat` expressed on the projection. -/
def catPred (nm : String) (pr : String × Option String) : Bool :=
  truthyStr pr.2 && pr.2 == some nm

lemma taskInCat_eq_catPred (nm : String) : taskInCat nm = catPred nm ∘ projNC := rfl

lemma filter_names_of_proj_eq (l1 l2 : List Task)
    (h : l1.map projNC = l2.map projNC) (nm : String) :
    (l1.filter (taskInCat nm)).map Task.name = (l2.filter (taskInCat nm)).map Task.name := by
  have e : ∀ l : List Task, (l.filter (taskInCat nm)).map Task.name =
      ((l.map projNC).filter (catPred nm)).map Prod.fst := by
    intro l
    rw [taskInCat_eq_catPred, List.filter_map]
    rw [List.map_map]
    rfl
  rw [e, e, h]

lemma gradeAverages_getElem (categories : List Category) (tasks : List Task) (ci : Nat)
    (cat : Category) (hcat : categories[ci]? = some cat) (ht : tasks.isEmpty = false) :
    (gradeAverages categories tasks)[ci]? =
      some (mkCatRow (categoryAveragesAcc tasks) tasks cat) := by
  have hc : categories.isEmpty = false := by
    cases categories with
    | nil => simp at hcat
    | cons a l => rfl
  rw [gradeAverages, hc, ht]
  simp only [Bool.or_false, Bool.false_eq_true, if_false]
  rw [List.getElem?_map, hcat]
  rfl

lemma gradeAverages_inv (categories : List Category) (tasks : List Task) (ci : Nat)
    (row : CatRow) (h : (gradeAverages categories tasks)[ci]? = some row) :
    tasks.isEmpty = false ∧ ∃ cat, categories[ci]? = some cat ∧
      row = mkCatRow (categoryAveragesAcc tasks) tasks cat := by
  rw [gradeAverages] at h
  cases hg : (categories.isEmpty || tasks.isEmpty) with
  | true => rw [hg] at h; simp at h
  | false =>
    rw [hg] at h
    simp only [Bool.false_eq_true, if_false, List.getElem?_map] at h
    refine ⟨(Bool.or_eq_false_iff.mp hg).2, ?_⟩
    cases hcat : categories[ci]? with
    | none => rw [hcat] at h; cases h
    | some cat =>
      rw [hcat] at h
      exact ⟨cat, rfl, (Option.some_inj.mp h).symm⟩

lemma set_self_of_getElem {α : Type _} (l : List α) (j : Nat) (x : α) (h : l[j]? = some x) :
    l.set j x = l := by
  induction l generalizing j with
  | nil => rfl
  | cons a rest ih =>
    cases j with
    | zero =>
      rw [List.getElem?_cons_zero] at h
      rw [List.set_cons_zero, Option.some_inj.mp h]
    | succ j2 =>
      rw [List.getElem?_cons_succ] at h
      rw [List.set_cons_succ, ih j2 h]

lemma setFirstMatch_eq_set (l : List Task) (n c : String) (p : Option Int) (j : Nat)
    (t : Task) (hj : l[j]? = some t) (htn : t.name = n) (htc : t.category = some c)
    (hfirst : ∀ i t2, i < j → l[i]? = some t2 → ¬(t2.name = n ∧ t2.category = some c)) :
    setFirstMatch l n c p = l.set j { t with percentage := p } := by
  induction l generalizing j with
  | nil => cases hj
  | cons a rest ih =>
    cases j with
    | zero =>
      rw [List.getElem?_cons_zero] at hj
      obtain rfl := Option.some_inj.mp hj
      rw [setFirstMatch, if_pos ⟨htn, htc⟩, List.set_cons_zero]
    | succ j2 =>
      rw [List.getElem?_cons_succ] at hj
      have ha : ¬(a.name = n ∧ a.category = some c) :=
        hfirst 0 a (Nat.succ_pos j2) List.getElem?_cons_zero
      rw [setFirstMatch, if_neg ha, List.set_cons_succ,
        ih j2 hj (fun i t2 hi hit => hfirst (i + 1) t2 (Nat.succ_lt_succ hi)
          (by rw [List.getElem?_cons_succ]; exact hit))]

lemma setFirstMatch_append (A rest : List Task) (t1 : Task) (n c : String) (p : Option Int)
    (hA : ∀ t ∈ A, ¬(t.name = n ∧ t.category = some c))
    (h1 : t1.name = n ∧ t1.category = some c) :
    setFirstMatch (A ++ t1 :: rest) n c p = A ++ { t1 with percentage := p } :: rest := by
  induction A with
  | nil => rw [List.nil_append, List.nil_append, setFirstMatch, if_pos h1]
  | cons a A2 ih =>
    rw [List.cons_append, List.cons_append, setFirstMatch,
      if_neg (hA a (List.mem_cons_self a A2)),
      ih (fun t ht => hA t (List.mem_cons_of_mem a ht))]

/-- `task.percentage = p` on the task at index `j` (no-op when out of range);
the state a sequence of first-match edits hitting index `j` keeps the list in. -/
def modifyPerc (ts : List Task) (j : Nat) (p : Option Int) : List Task :=
  match ts[j]? with
  | none => ts
  | some t => ts.set j { t with percentage := p }

lemma modifyPerc_proj (ts : List Task) (j : Nat) (p : Option Int) :
    (modifyPerc ts j p).map projNC = ts.map projNC := by
  rw [modifyPerc]
  cases h : ts[j]? with
  | none => rfl
  | some t =>
    rw [List.map_set]
    have he : projNC { t with percentage := p } = projNC t := rfl
    rw [he]
    apply set_self_of_getElem
    rw [List.getElem?_map, h]
    rfl

lemma modifyPerc_isEmpty (ts : List Task) (j : Nat) (p : Option Int) :
    (modifyPerc ts j p).isEmpty = ts.isEmpty := by
  rw [modifyPerc]
  cases h : ts[j]? with
  | none => rfl
  | some t =>
    cases ts with
    | nil => cases h
    | cons a l => cases j <;> rfl

lemma modifyPerc_getElem_self (ts : List Task) (j : Nat) (p : Option Int) (x : Task)
    (hx : ts[j]? = some x) :
    (modifyPerc ts j p)[j]? = some { x with percentage := p } := by
  rw [modifyPerc, hx, List.getElem?_set, if_pos rfl, if_pos (List.getElem?_eq_some.mp hx).1]

lemma modifyPerc_getElem_ne (ts : List Task) (i j : Nat) (p : Option Int) (hij : j ≠ i) :
    (modifyPerc ts j p)[i]? = ts[i]? := by
  rw [modifyPerc]
  cases h : ts[j]? with
  | none => rfl
  | some t => exact List.getElem?_set_ne hij

lemma modifyPerc_set (ts : List Task) (j : Nat) (p : Option Int) (y : Task) :
    (modifyPerc ts j p).set j y = ts.set j y := by
  rw [modifyPerc]
  cases h : ts[j]? with
  | none => rfl
  | some t => exact List.set_set _ _ ts j

lemma modifyPerc_self (ts : List Task) (j : Nat) (x : Task) (hx : ts[j]? = some x) :
    modifyPerc ts j x.percentage = ts := by
  rw [modifyPerc, hx]
  exact set_self_of_getElem ts j x hx

lemma mkCatRow_category (acc : List AccEntry) (tasks : List Task) (c : Category) :
    (mkCatRow acc tasks c).category = c.name := rfl

lemma mkCatRow_tasks (acc : List AccEntry) (tasks : List Task) (c : Category) :
    (mkCatRow acc tasks c).tasks = (tasks.filter (taskInCat c.name)).map toRowTask := rfl

lemma applyEdit_eval (categories : List Category) (tasks : List Task) (ci ti : Nat)
    (row : CatRow) (rt : RowTask) (pv : Option Int)
    (h1 : (gradeAverages categories tasks)[ci]? = some row)
    (h2 : row.tasks[ti]? = some rt) :
    applyEdit categories tasks ci ti pv = setFirstMatch tasks rt.name row.category pv := by
  rw [applyEdit, h1]
  dsimp only
  rw [h2]

lemma restoreOriginalValue_eval (categories : List Category) (tasks : List Task)
    (baseline : List CatRow) (ci ti : Nat) (orow : CatRow) (ort : RowTask)
    (hb1 : baseline[ci]? = some orow) (hb2 : orow.tasks[ti]? = some ort) :
    restoreOriginalValue categories tasks baseline ci ti =
      applyEdit categories tasks ci ti ort.percentage := by
  rw [restoreOriginalValue, hb1]
  dsimp only
  rw [hb2]

/-- The heart of the edit invariant: on a list that differs from `tasks0`
only in the percentage of index `j`, when the row coordinate `(ci, ti)`
resolves to the name-category pair of the task at `j` and `j` is the first
index bearing that pair, an `applyEdit` writes through to index `j` again. -/
lemma applyEdit_modifyPerc (categories : List Category) (tasks0 : List Task)
    (ci ti j : Nat) (row : CatRow) (rt : RowTask) (x : Task) (p pv : Option Int)
    (h1 : (gradeAverages categories tasks0)[ci]? = some row)
    (h2 : row.tasks[ti]? = some rt)
    (hx : tasks0[j]? = some x) (hxn : x.name = rt.name) (hxc : x.category = some row.category)
    (hfirst : ∀ i t2, i < j → tasks0[i]? = some t2 →
      ¬(t2.name = rt.name ∧ t2.category = some row.category)) :
    applyEdit categories (modifyPerc tasks0 j p) ci ti pv = modifyPerc tasks0 j pv := by
  obtain ⟨hte, cat, hcat, hrow⟩ := gradeAverages_inv categories tasks0 ci row h1
  have hrcat : row.category = cat.name := by rw [hrow]; rfl
  have hrtasks : row.tasks = (tasks0.filter (taskInCat cat.name)).map toRowTask := by
    rw [hrow]; rfl
  rw [hrtasks, List.getElem?_map] at h2
  cases hy : (tasks0.filter (taskInCat cat.name))[ti]? with
  | none => rw [hy] at h2; cases h2
  | some y =>
    rw [hy] at h2
    have hyrt : toRowTask y = rt := Option.some_inj.mp h2
    have hte2 : (modifyPerc tasks0 j p).isEmpty = false := by
      rw [modifyPerc_isEmpty]; exact hte
    have h1b := gradeAverages_getElem categories (modifyPerc tasks0 j p) ci cat hcat hte2
    have hnames := filter_names_of_proj_eq (modifyPerc tasks0 j p) tasks0
      (modifyPerc_proj tasks0 j p) cat.name
    have hidx : (((modifyPerc tasks0 j p).filter (taskInCat cat.name)).map Task.name)[ti]? =
        some y.name := by
      rw [hnames, List.getElem?_map, hy]; rfl
    rw [List.getElem?_map] at hidx
    cases hy2 : ((modifyPerc tasks0 j p).filter (taskInCat cat.name))[ti]? with
    | none => rw [hy2] at hidx; cases hidx
    | some y2 =>
      rw [hy2] at hidx
      have hy2n : y2.name = y.name := Option.some_inj.mp hidx
      have hrt2 : (mkCatRow (categoryAveragesAcc (modifyPerc tasks0 j p))
          (modifyPerc tasks0 j p) cat).tasks[ti]? = some (toRowTask y2) := by
        rw [mkCatRow_tasks, List.getElem?_map, hy2]; rfl
      rw [applyEdit_eval categories (modifyPerc tasks0 j p) ci ti _ (toRowTask y2) pv h1b hrt2,
        mkCatRow_category]
      have hname2 : (toRowTask y2).name = rt.name := by
        rw [← hyrt]
        exact hy2n
      have hj2 : (modifyPerc tasks0 j p)[j]? = some { x with percentage := p } :=
        modifyPerc_getElem_self tasks0 j p x hx
      rw [setFirstMatch_eq_set (modifyPerc tasks0 j p) (toRowTask y2).name cat.name pv j
        { x with percentage := p } hj2
        (by rw [show ({ x with percentage := p } : Task).name = x.name from rfl, hxn, hname2])
        (by rw [show ({ x with percentage := p } : Task).category = x.category from rfl, hxc,
          hrcat])
        (fun i t2 hi hit => by
          rw [modifyPerc_getElem_ne tasks0 i j p (Nat.ne_of_gt hi)] at hit
          rw [hname2, ← hrcat]
          exact hfirst i t2 hi hit)]
      have hcollapse : ({ { x with percentage := p } with percentage := pv } : Task) =
          { x with percentage := pv } := rfl
      rw [hcollapse, modifyPerc_set]
      rw [modifyPerc, hx]

/-! ### C8: restore round-trip -/

/-- Claim C8 (amended): provided the edited row's task is the first task in
the class list bearing its (name, category) pair — in particular whenever no
two tasks of the class share both name and category — any finite sequence of
`updatePercentage` calls on the coordinate followed by `restoreOriginalValue`
on it, against the baseline snapshot taken before the edits, returns the task
list (and hence every recomputed category average) to exactly its baseline
state.  When an earlier task aliases the row's (name, category) pair the
round-trip fails, as the counterexample shows. -/
theorem claim_C8_restore_round_trip (categories : List Category) (tasks0 : List Task)
    (ci ti j : Nat) (vs : List String) (row : CatRow) (rt : RowTask) (x : Task)
    (h1 : (gradeAverages categories tasks0)[ci]? = some row)
    (h2 : row.tasks[ti]? = some rt)
    (hx : tasks0[j]? = some x) (hxn : x.name = rt.name)
    (hxc : x.category = some row.category) (hxp : x.percentage = rt.percentage)
    (hfirst : ∀ i t2, i < j → tasks0[i]? = some t2 →
      ¬(t2.name = rt.name ∧ t2.category = some row.category)) :
    restoreOriginalValue categories
        (vs.foldl (fun ts v => updatePercentage categories ts ci ti v) tasks0)
        (gradeAverages categories tasks0) ci ti = tasks0 ∧
    gradeAverages categories
        (restoreOriginalValue categories
          (vs.foldl (fun ts v => updatePercentage categories ts ci ti v) tasks0)
          (gradeAverages categories tasks0) ci ti) = gradeAverages categories tasks0 := by
  have hinv : ∀ (vs2 : List String) (ts : List Task), (∃ p, ts = modifyPerc tasks0 j p) →
      ∃ p, vs2.foldl (fun ts v => updatePercentage categories ts ci ti v) ts =
        modifyPerc tasks0 j p := by
    intro vs2
    induction vs2 with
    | nil => intro ts h; exact h
    | cons v rest ih =>
      intro ts h
      rw [List.foldl_cons]
      apply ih
      obtain ⟨p, rfl⟩ := h
      by_cases hv : v = ""
      · subst hv
        rw [updatePercentage, if_pos rfl]
        exact ⟨none,
          applyEdit_modifyPerc categories tasks0 ci ti j row rt x p none h1 h2 hx hxn hxc hfirst⟩
      · rw [updatePercentage, if_neg hv]
        cases hn : jsParseInt v.data with
        | none => exact ⟨p, rfl⟩
        | some n =>
          dsimp only
          by_cases hout : n < 0 ∨ 100 < n
          · rw [if_pos hout]
            exact ⟨p, rfl⟩
          · rw [if_neg hout]
            exact ⟨some n, applyEdit_modifyPerc categories tasks0 ci ti j row rt x p (some n)
              h1 h2 hx hxn hxc hfirst⟩
  obtain ⟨p, hfold⟩ := hinv vs tasks0 ⟨x.percentage, (modifyPerc_self tasks0 j x hx).symm⟩
  have hres : restoreOriginalValue categories
      (vs.foldl (fun ts v => updatePercentage categories ts ci ti v) tasks0)
      (gradeAverages categories tasks0) ci ti = tasks0 := by
    rw [restoreOriginalValue_eval categories _ (gradeAverages categories tasks0) ci ti row rt
      h1 h2, hfold,
      applyEdit_modifyPerc categories tasks0 ci ti j row rt x p rt.percentage
        h1 h2 hx hxn hxc hfirst,
      ← hxp, modifyPerc_self tasks0 j x hx]
  exact ⟨hres, by rw [hres]⟩

/-- Counterexample for C8 as stated: two tasks of category `C` both named
`x`; an accepted edit on the second row writes to the first task, and so does
the restore, so the first task ends at the second row's baseline value 20
instead of its own baseline 10, and the category average recomputes to 20
instead of its pre-edit 15. -/
theorem claim_C8_restore_round_trip_counterexample :
    restoreOriginalValue [⟨"C", 1, "#f"⟩]
        (updatePercentage [⟨"C", 1, "#f"⟩]
          [mkTask "x" (some "C") (some 10), mkTask "x" (some "C") (some 20)] 0 1 "50")
        (gradeAverages [⟨"C", 1, "#f"⟩]
          [mkTask "x" (some "C") (some 10), mkTask "x" (some "C") (some 20)]) 0 1 =
      [mkTask "x" (some "C") (some 20), mkTask "x" (some "C") (some 20)] ∧
    restoreOriginalValue [⟨"C", 1, "#f"⟩]
        (updatePercentage [⟨"C", 1, "#f"⟩]
          [mkTask "x" (some "C") (some 10), mkTask "x" (some "C") (some 20)] 0 1 "50")
        (gradeAverages [⟨"C", 1, "#f"⟩]
          [mkTask "x" (some "C") (some 10), mkTask "x" (some "C") (some 20)]) 0 1 ≠
      [mkTask "x" (some "C") (some 10), mkTask "x" (some "C") (some 20)] ∧
    (gradeAverages [⟨"C", 1, "#f"⟩]
        [mkTask "x" (some "C") (some 20), mkTask "x" (some "C") (some 20)]).map
      CatRow.average = [some 20] ∧
    (gradeAverages [⟨"C", 1, "#f"⟩]
        [mkTask "x" (some "C") (some 10), mkTask "x" (some "C") (some 20)]).map
      CatRow.average = [some 15] ∧
    (some (20 : Int) ≠ some (15 : Int)) := by
  have hacc20 : categoryAveragesAcc
      [mkTask "x" (some "C") (some 20), mkTask "x" (some "C") (some 20)] =
      [("C", 40, 2)] := by decide
  have hacc15 : categoryAveragesAcc
      [mkTask "x" (some "C") (some 10), mkTask "x" (some "C") (some 20)] =
      [("C", 30, 2)] := by decide
  refine ⟨by decide, by decide, ?_, ?_, by decide⟩
  · rw [gradeAverages]
    simp only [List.isEmpty, Bool.or_self, Bool.false_eq_true, if_false, List.map,
      mkCatRow, hacc20, lookupAcc, String.reduceEq, reduceIte]
    norm_num [roundHalfUp]
  · rw [gradeAverages]
    simp only [List.isEmpty, Bool.or_self, Bool.false_eq_true, if_false, List.map,
      mkCatRow, hacc15, lookupAcc, String.reduceEq, reduceIte]
    norm_num [roundHalfUp]

/-- Witness for C8: a single-task class edited twice (once with a junk value)
and restored. -/
theorem claim_C8_restore_round_trip_witness :
    restoreOriginalValue [⟨"C", 1, "#f"⟩]
        (["55", "abc", ""].foldl
          (fun ts v => updatePercentage [⟨"C", 1, "#f"⟩] ts 0 0 v)
          [mkTask "x" (some "C") (some 10)])
        (gradeAverages [⟨"C", 1, "#f"⟩] [mkTask "x" (some "C") (some 10)]) 0 0 =
      [mkTask "x" (some "C") (some 10)] := by
  have h1 : (gradeAverages [⟨"C", 1, "#f"⟩] [mkTask "x" (some "C") (some 10)])[0]? =
      some (mkCatRow (categoryAveragesAcc [mkTask "x" (some "C") (some 10)])
        [mkTask "x" (some "C") (some 10)] ⟨"C", 1, "#f"⟩) :=
    gradeAverages_getElem [⟨"C", 1, "#f"⟩] [mkTask "x" (some "C") (some 10)] 0
      ⟨"C", 1, "#f"⟩ (by decide) (by decide)
  have h2 : (mkCatRow (categoryAveragesAcc [mkTask "x" (some "C") (some 10)])
      [mkTask "x" (some "C") (some 10)] ⟨"C", 1, "#f"⟩).tasks[0]? =
      some (toRowTask (mkTask "x" (some "C") (some 10))) := by decide
  exact (claim_C8_restore_round_trip [⟨"C", 1, "#f"⟩] [mkTask "x" (some "C") (some 10)]
    0 0 0 ["55", "abc", ""] _ _ (mkTask "x" (some "C") (some 10)) h1 h2
    (by decide) (by decide) (by decide) (by decide)
    (fun i t2 hi _ => absurd hi (Nat.not_lt_zero i))).1

/-! ### C10: first-match aliasing on duplicate task names -/

lemma taskInCat_eq_true (nm : String) (t : Task) :
    taskInCat nm t = true ↔ t.category = some nm ∧ nm ≠ "" := by
  cases hc : t.category with
  | none => simp [taskInCat, truthyStr, hc]
  | some s =>
    simp only [taskInCat, truthyStr, hc, Bool.and_eq_true, Bool.not_eq_true',
      beq_iff_eq, beq_eq_false_iff_ne, ne_eq, Option.some_inj]
    constructor
    · rintro ⟨h1, rfl⟩
      exact ⟨rfl, h1⟩
    · rintro ⟨rfl, h2⟩
      exact ⟨h2, rfl⟩

/-- Claim C10: override edits and restores resolve their target by the first
task whose name and category match the edited row, so when an earlier task
`t1` shares the (name, category) pair of the row's own task `t2`, an accepted
edit or a restore aimed at `t2`'s row mutates `t1` instead and leaves `t2`
(and everything else) untouched. -/
theorem claim_C10_first_match_aliasing (categories : List Category)
    (A B C2 : List Task) (t1 t2 : Task) (ci ti : Nat) (cat : Category) (n c : String)
    (v : String) (m : Int) (baseline : List CatRow) (orow : CatRow) (ort : RowTask)
    (hcat : categories[ci]? = some cat) (hcname : cat.name = c) (hc : c ≠ "")
    (ht1n : t1.name = n) (ht1c : t1.category = some c)
    (ht2n : t2.name = n) (ht2c : t2.category = some c)
    (hA : ∀ t ∈ A, ¬(t.name = n ∧ t.category = some c))
    (hti : ti = (A ++ t1 :: B).countP (taskInCat c))
    (hv : v ≠ "") (hm : jsParseInt v.data = some m) (hm0 : 0 ≤ m) (hm100 : m ≤ 100)
    (hb1 : baseline[ci]? = some orow) (hb2 : orow.tasks[ti]? = some ort) :
    updatePercentage categories (A ++ t1 :: (B ++ t2 :: C2)) ci ti v =
      A ++ { t1 with percentage := some m } :: (B ++ t2 :: C2) ∧
    restoreOriginalValue categories (A ++ t1 :: (B ++ t2 :: C2)) baseline ci ti =
      A ++ { t1 with percentage := ort.percentage } :: (B ++ t2 :: C2) := by
  have hp1 : taskInCat c t1 = true := (taskInCat_eq_true c t1).mpr ⟨ht1c, hc⟩
  have hp2 : taskInCat c t2 = true := (taskInCat_eq_true c t2).mpr ⟨ht2c, hc⟩
  have hne : (A ++ t1 :: (B ++ t2 :: C2)).isEmpty = false := by cases A <;> rfl
  have h1 := gradeAverages_getElem categories (A ++ t1 :: (B ++ t2 :: C2)) ci cat hcat hne
  have hfilter : (A ++ t1 :: (B ++ t2 :: C2)).filter (taskInCat c) =
      (A.filter (taskInCat c)) ++ t1 ::
        ((B.filter (taskInCat c)) ++ t2 :: (C2.filter (taskInCat c))) := by
    rw [List.filter_append, List.filter_cons_of_pos hp1, List.filter_append,
      List.filter_cons_of_pos hp2]
  have hlen : ti = (A.filter (taskInCat c)).length + ((B.filter (taskInCat c)).length + 1) := by
    rw [hti, List.countP_eq_length_filter, List.filter_append, List.filter_cons_of_pos hp1]
    simp [List.length_append]
  have hrt : (mkCatRow (categoryAveragesAcc (A ++ t1 :: (B ++ t2 :: C2)))
      (A ++ t1 :: (B ++ t2 :: C2)) cat).tasks[ti]? = some (toRowTask t2) := by
    rw [mkCatRow_tasks, hcname, List.getElem?_map, hfilter,
      List.getElem?_append_right (by omega : (A.filter (taskInCat c)).length ≤ ti)]
    have hsub : ti - (A.filter (taskInCat c)).length = (B.filter (taskInCat c)).length + 1 := by
      omega
    rw [hsub, List.getElem?_cons_succ,
      List.getElem?_append_right (le_refl (B.filter (taskInCat c)).length),
      Nat.sub_self, List.getElem?_cons_zero]
    rfl
  have happly : ∀ pv, applyEdit categories (A ++ t1 :: (B ++ t2 :: C2)) ci ti pv =
      A ++ { t1 with percentage := pv } :: (B ++ t2 :: C2) := by
    intro pv
    rw [applyEdit_eval categories (A ++ t1 :: (B ++ t2 :: C2)) ci ti _ (toRowTask t2) pv h1 hrt,
      mkCatRow_category, hcname,
      show (toRowTask t2).name = n from ht2n]
    exact setFirstMatch_append A (B ++ t2 :: C2) t1 n c pv hA ⟨ht1n, ht1c⟩
  constructor
  · rw [updatePercentage, if_neg hv, hm]
    dsimp only
    rw [if_neg (by omega)]
    exact happly (some m)
  · rw [restoreOriginalValue_eval categories (A ++ t1 :: (B ++ t2 :: C2)) baseline ci ti
      orow ort hb1 hb2]
    exact happly ort.percentage

/-- Witness for C10: two tasks named `x` in category `C`; the edit aimed at
the second row (row index 1) mutates the first task, the restore likewise. -/
theorem claim_C10_first_match_aliasing_witness :
    updatePercentage [⟨"C", 1, "#f"⟩]
        ([] ++ mkTask "x" (some "C") (some 10) :: ([] ++ mkTask "x" (some "C") (some 20) :: []))
        0 1 "50" =
      [] ++ { mkTask "x" (some "C") (some 10) with percentage := some 50 } ::
        ([] ++ mkTask "x" (some "C") (some 20) :: []) ∧
    restoreOriginalValue [⟨"C", 1, "#f"⟩]
        ([] ++ mkTask "x" (some "C") (some 10) :: ([] ++ mkTask "x" (some "C") (some 20) :: []))
        [⟨"C", "#f", 1, none, [⟨"x", none, some 10⟩, ⟨"x", none, some 20⟩]⟩] 0 1 =
      [] ++ { mkTask "x" (some "C") (some 10) with
          percentage := (⟨"x", none, some 20⟩ : RowTask).percentage } ::
        ([] ++ mkTask "x" (some "C") (some 20) :: []) :=
  claim_C10_first_match_aliasing [⟨"C", 1, "#f"⟩] [] [] []
    (mkTask "x" (some "C") (some 10)) (mkTask "x" (some "C") (some 20)) 0 1
    ⟨"C", 1, "#f"⟩ "x" "C" "50" 50
    [⟨"C", "#f", 1, none, [⟨"x", none, some 10⟩, ⟨"x", none, some 20⟩]⟩]
    ⟨"C", "#f", 1, none, [⟨"x", none, some 10⟩, ⟨"x", none, some 20⟩]⟩
    ⟨"x", none, some 20⟩
    (by decide) (by decide) (by decide) (by decide) (by decide) (by decide) (by decide)
    (by simp) (by decide) (by decide) (by decide) (by omega) (by omega)
    (by decide) (by decide)

end GradeCalc
